import Mathlib

/-
Verification development for the openjourney generation/orchestration layer.

The definitions below are shallow embeddings of the TypeScript source:
  * the generation timeline and its record union (content-grid.tsx),
  * the media flattening and global-index computation (getAllMediaItems /
    openFocusedView in content-grid.tsx),
  * the generation workflows (handleNewGeneration, handleImageToVideo,
    handleImproveImage in content-grid.tsx),
  * the API routes (app/api/generate-images, generate-videos,
    image-to-video, improve-image),
  * the image-grid convert-to-video guard and the focused-media-view
    button handlers.

JavaScript conventions are modelled explicitly: optional / possibly
absent string fields become Option String, and JS truthiness of a string
(absent or empty counts as false) is modelled by the stringTruthy
predicate.  Timestamps (Date values, Date.now()) are Nat milliseconds.
Array.prototype.sort is stable (ES2019), so the sort comparator
(a, b) => b.timestamp - a.timestamp is modelled by a stable insertion
sort into descending-timestamp order.
-/

namespace Openjourney

/-- JS truthiness of an optional string: undefined / null / "" are falsy. -/
def stringTruthy : Option String → Bool
  | none => false
  | some s => s ≠ ""

/-- The two media kinds of the app (the `type` field of a LoadingGeneration). -/
inductive MediaKind where
  | image
  | video
deriving DecidableEq, Repr

/-- One entry of ImageGeneration.images:
`Array<(url: string; imageBytes?: string; isSample?: boolean)>`. -/
structure ImageItem where
  url : String
  imageBytes : Option String
  isSample : Bool
deriving DecidableEq, Repr

/-- The GenerationRecord union of content-grid.tsx: ImageGeneration,
VideoGeneration and LoadingGeneration, distinguished in the source by the
`isLoading` flag and the structural presence of `images` / `videos`.
The JS field `timestamp` (a Date) is milliseconds as Nat. -/
inductive Generation where
  | image (id : String) (prompt : String) (images : List ImageItem) (timestamp : Nat)
  | video (id : String) (prompt : String) (videos : List String) (timestamp : Nat)
      (sourceImage : Option String)
  | loading (id : String) (prompt : String) (kind : MediaKind) (timestamp : Nat)
      (sourceImage : Option String)
deriving DecidableEq, Repr

def Generation.id : Generation → String
  | .image i _ _ _ => i
  | .video i _ _ _ _ => i
  | .loading i _ _ _ _ => i

def Generation.prompt : Generation → String
  | .image _ p _ _ => p
  | .video _ p _ _ _ => p
  | .loading _ p _ _ _ => p

def Generation.timestamp : Generation → Nat
  | .image _ _ _ t => t
  | .video _ _ _ t _ => t
  | .loading _ _ _ t _ => t

/-- The `isLoading` flag: true exactly on LoadingGeneration records. -/
def Generation.isLoading : Generation → Bool
  | .loading _ _ _ _ _ => true
  | _ => false

/-- Number of individual media items of a completed record
(`gen.images.length` / `gen.videos.length` in openFocusedView). -/
def Generation.itemCount : Generation → Nat
  | .image _ _ images _ => images.length
  | .video _ _ videos _ _ => videos.length
  | .loading _ _ _ _ _ => 0

/-- The flattened MediaItem of content-grid.tsx / focused-media-view.tsx.
The source field `type` is a reserved word in Lean and is named `kind` here. -/
structure MediaItem where
  id : String
  kind : MediaKind
  url : String
  prompt : String
  timestamp : Nat
  sourceImage : Option String
  imageBytes : Option String
deriving DecidableEq, Repr

/-- The per-record expansion performed by the forEach body of
getAllMediaItems: one MediaItem per image (id `gid-img-i`) or per video
(id `gid-vid-i`); loading records are skipped (`if (!generation.isLoading)`). -/
def expandGeneration : Generation → List MediaItem
  | .image gid prompt images ts =>
      images.enum.map fun p =>
        { id := gid ++ "-img-" ++ toString p.1
          kind := .image
          url := p.2.url
          prompt := prompt
          timestamp := ts
          sourceImage := none
          imageBytes := p.2.imageBytes }
  | .video gid prompt videos ts sourceImage =>
      videos.enum.map fun p =>
        { id := gid ++ "-vid-" ++ toString p.1
          kind := .video
          url := p.2
          prompt := prompt
          timestamp := ts
          sourceImage := sourceImage
          imageBytes := none }
  | .loading _ _ _ _ _ => []

/-- The full pre-sort accumulation of getAllMediaItems (the mediaItems
array after the forEach, before the sort call). -/
def expandTimeline (generations : List Generation) : List MediaItem :=
  generations.flatMap expandGeneration

/-- Stable insertion into a descending-by-timestamp list.  The element
being inserted comes earlier in the original array than everything in the
tail, so on ties it is placed first — exactly the stable order of
Array.prototype.sort with comparator (a, b) => b.timestamp - a.timestamp. -/
def insertByTs (x : MediaItem) : List MediaItem → List MediaItem
  | [] => [x]
  | y :: ys => if y.timestamp ≤ x.timestamp then x :: y :: ys else y :: insertByTs x ys

/-- Stable sort into descending timestamp order, modelling
`mediaItems.sort((a, b) => b.timestamp.getTime() - a.timestamp.getTime())`. -/
def sortByTimestampDesc : List MediaItem → List MediaItem
  | [] => []
  | x :: xs => insertByTs x (sortByTimestampDesc xs)

/-- getAllMediaItems of content-grid.tsx: expand every completed record,
then sort by timestamp, newest first. -/
def getAllMediaItems (generations : List Generation) : List MediaItem :=
  sortByTimestampDesc (expandTimeline generations)

/-- The global-index computation inside openFocusedView: walk the
generations array, skip loading records, stop at the record whose id
matches (adding the local item index), otherwise add the record size. -/
def openFocusedViewIndex : List Generation → String → Nat → Nat
  | [], _, _ => 0
  | g :: gs, generationId, itemIndex =>
    if g.isLoading then openFocusedViewIndex gs generationId itemIndex
    else if g.id = generationId then itemIndex
    else g.itemCount + openFocusedViewIndex gs generationId itemIndex

/-! ### Timeline store operations (content-grid.tsx) -/

/-- Id of the loading record made by handleNewGeneration:
`loading-(Date.now())`. -/
def loadingIdNew (now : Nat) : String := "loading-" ++ toString now

/-- Id of the loading record made by handleImageToVideo:
`video-loading-(Date.now())`. -/
def loadingIdI2V (now : Nat) : String := "video-loading-" ++ toString now

/-- Id of the loading record made by handleImproveImage:
`improve-loading-(Date.now())`. -/
def loadingIdImprove (now : Nat) : String := "improve-loading-" ++ toString now

/-- In-place completion:
`prev.map(gen => gen.id === loadingGeneration.id ? completedGeneration : gen)`. -/
def completeGeneration (timeline : List Generation) (targetId : String)
    (completed : Generation) : List Generation :=
  timeline.map fun g => if g.id = targetId then completed else g

/-- Removal on failure:
`prev.filter(gen => gen.id !== loadingGeneration.id)`. -/
def failGeneration (timeline : List Generation) (targetId : String) : List Generation :=
  timeline.filter fun g => g.id ≠ targetId

/-- Client-side view of one element of the images array of an API
response (`img.url`, `img.imageBytes`). -/
structure ClientImage where
  url : String
  imageBytes : Option String
deriving DecidableEq, Repr

/-- Client-side view of one element of the videos array of an API
response (only `vid.url` is read). -/
structure ClientVideo where
  url : String
deriving DecidableEq, Repr

/-- Parsed JSON of /api/generate-images as read by handleNewGeneration:
`data.success` (truthiness of the success field) and `data.images`. -/
structure ImagesData where
  success : Bool
  images : List ClientImage
  error : Option String
deriving DecidableEq, Repr

/-- Parsed JSON of /api/generate-videos or /api/image-to-video as read by
the client: `data.success` and `data.videos`. -/
structure VideosData where
  success : Bool
  videos : List ClientVideo
  error : Option String
deriving DecidableEq, Repr

/-- Parsed JSON of /api/improve-image as read by handleImproveImage:
`data.success`, `data.images` and the echoed `data.enhancedPrompt`. -/
structure ImproveData where
  success : Bool
  images : List ClientImage
  enhancedPrompt : Option String
  error : Option String
deriving DecidableEq, Repr

/-- The image branch of handleNewGeneration as a function of the timeline
before the call, the clock value Date.now(), and the outcome of the
fetch/json (Except.error models a thrown exception, caught by the same
try/catch as a non-success response). -/
def handleNewGenerationImage (timeline : List Generation) (prompt : String) (now : Nat)
    (resp : Except Unit ImagesData) : List Generation :=
  let lg : Generation := .loading (loadingIdNew now) prompt .image now none
  let t1 := lg :: timeline
  match resp with
  | .ok data =>
    if data.success then
      completeGeneration t1 lg.id
        (.image lg.id prompt
          (data.images.map fun im =>
            { url := im.url, imageBytes := im.imageBytes, isSample := false }) now)
    else failGeneration t1 lg.id
  | .error _ => failGeneration t1 lg.id

/-- The video branch of handleNewGeneration. -/
def handleNewGenerationVideo (timeline : List Generation) (prompt : String) (now : Nat)
    (resp : Except Unit VideosData) : List Generation :=
  let lg : Generation := .loading (loadingIdNew now) prompt .video now none
  let t1 := lg :: timeline
  match resp with
  | .ok data =>
    if data.success then
      completeGeneration t1 lg.id
        (.video lg.id prompt (data.videos.map fun v => v.url) now none)
    else failGeneration t1 lg.id
  | .error _ => failGeneration t1 lg.id

/-- handleImageToVideo of content-grid.tsx: derived prompt
`prompt - animated video`, loading record carries the source image url. -/
def handleImageToVideo (timeline : List Generation) (imageUrl : String)
    (prompt : String) (now : Nat) (resp : Except Unit VideosData) : List Generation :=
  let derived := prompt ++ " - animated video"
  let lg : Generation := .loading (loadingIdI2V now) derived .video now (some imageUrl)
  let t1 := lg :: timeline
  match resp with
  | .ok data =>
    if data.success then
      completeGeneration t1 lg.id
        (.video lg.id derived (data.videos.map fun v => v.url) now (some imageUrl))
    else failGeneration t1 lg.id
  | .error _ => failGeneration t1 lg.id

/-- The prompt shown on the completed record of handleImproveImage:
`data.enhancedPrompt || loadingGeneration.prompt` (JS truthiness, so an
absent or empty enhancedPrompt falls back to the local label). -/
def improveShownPrompt (enhancedPrompt : Option String) (fallback : String) : String :=
  match enhancedPrompt with
  | some s => if s = "" then fallback else s
  | none => fallback

/-- handleImproveImage of content-grid.tsx: local label
`originalPrompt - improved: improvementPrompt`, completed prompt taken
from the echoed enhancedPrompt when truthy. -/
def handleImproveImage (timeline : List Generation) (originalPrompt : String)
    (improvementPrompt : String) (now : Nat) (resp : Except Unit ImproveData) :
    List Generation :=
  let localLabel := originalPrompt ++ " - improved: " ++ improvementPrompt
  let lg : Generation := .loading (loadingIdImprove now) localLabel .image now none
  let t1 := lg :: timeline
  match resp with
  | .ok data =>
    if data.success then
      completeGeneration t1 lg.id
        (.image lg.id (improveShownPrompt data.enhancedPrompt localLabel)
          (data.images.map fun im =>
            { url := im.url, imageBytes := im.imageBytes, isSample := false }) now)
    else failGeneration t1 lg.id
  | .error _ => failGeneration t1 lg.id

/-! ### /api/generate-images route (gemini-2.5-flash-image-preview batch) -/

/-- `part.inlineData` of a Gemini response part. -/
structure InlineData where
  mimeType : Option String
  data : String
deriving DecidableEq, Repr

/-- One part of a candidate content. -/
structure GeminiPart where
  inlineData : Option InlineData
deriving DecidableEq, Repr

/-- One candidate; `candidate.content?.parts` may be absent. -/
structure GeminiCandidate where
  parts : Option (List GeminiPart)
deriving DecidableEq, Repr

/-- The generateContent response body; `response.candidates || []`. -/
structure GeminiResponse where
  candidates : List GeminiCandidate
deriving DecidableEq, Repr

/-- One entry of the images array the route returns. -/
structure GenImage where
  id : String
  url : String
  imageBytes : String
deriving DecidableEq, Repr

/-- The nested loop of the route body: the first part whose
`inlineData?.data` is truthy (an empty data string is falsy in JS and is
skipped). -/
def firstInlineImage (resp : GeminiResponse) : Option InlineData :=
  resp.candidates.findSome? fun c =>
    match c.parts with
    | none => none
    | some ps => ps.findSome? fun p =>
        match p.inlineData with
        | none => none
        | some d => if d.data = "" then none else some d

/-- One of the 4 concurrent sub-calls of the route: an Except.error is a
thrown provider call (caught, returning null); an ok response with no
usable inline image also returns null; otherwise the GenImage with a
data URI built from the mime type (defaulting to image/png). -/
def subCallImage (now index : Nat) (result : Except Unit GeminiResponse) : Option GenImage :=
  match result with
  | .error _ => none
  | .ok resp =>
    match firstInlineImage resp with
    | none => none
    | some d =>
      let mime := d.mimeType.getD "image/png"
      some { id := toString now ++ "-" ++ toString index
             url := "data:" ++ mime ++ ";base64," ++ d.data
             imageBytes := d.data }

/-- JSON body and HTTP status returned by the images route. -/
structure ImagesRouteResponse where
  success : Bool
  images : List GenImage
  error : Option String
  status : Nat
deriving DecidableEq, Repr

/-- POST of app/api/generate-images/route.ts: prompt and api-key guards,
then 4 concurrent sub-calls whose null results are dropped by
`filter(Boolean)`; the route answers 200/success with whatever images
remain — there is no special casing of an empty result list. -/
def generateImagesPOST (now : Nat) (prompt : String) (apiKey : Option String)
    (subResults : List (Except Unit GeminiResponse)) : ImagesRouteResponse :=
  if prompt = "" then
    { success := false, images := [], error := some "Prompt is required", status := 400 }
  else
    match apiKey with
    | none =>
      { success := false, images := []
        error := some "No API key provided. Please add your Google AI API key in the settings."
        status := 401 }
    | some _ =>
      let generatedImages := subResults.enum.map fun p => subCallImage now p.1 p.2
      let images := generatedImages.filterMap fun x => x
      { success := true, images := images, error := none, status := 200 }

/-! ### /api/improve-image route -/

/-- The derived prompt composed by the improve-image route. -/
def improveEnhancedPrompt (originalPrompt improvementPrompt : String) : String :=
  originalPrompt ++ ". Please improve this image by: " ++ improvementPrompt

/-- `generatedImage.image?.imageBytes` of one Imagen result slot. -/
structure ImagenSlot where
  imageBytes : Option String
deriving DecidableEq, Repr

/-- JSON body and status of the improve-image route. -/
structure ImproveRouteResponse where
  success : Bool
  images : List GenImage
  originalPrompt : String
  improvementPrompt : String
  enhancedPrompt : String
  error : Option String
  status : Nat
deriving DecidableEq, Repr

/-- POST of app/api/improve-image/route.ts: prompt / image / key guards,
composition of the enhanced prompt, then the Imagen batch whose empty
slots are dropped (`if (!imageData) return null` plus filter(Boolean)). -/
def improveImagePOST (now : Nat) (originalPrompt improvementPrompt imageBytes : String)
    (apiKey : Option String) (slots : List ImagenSlot) : ImproveRouteResponse :=
  if originalPrompt = "" ∨ improvementPrompt = "" then
    { success := false, images := [], originalPrompt := originalPrompt
      improvementPrompt := improvementPrompt, enhancedPrompt := ""
      error := some "Both original and improvement prompts are required", status := 400 }
  else if imageBytes = "" then
    { success := false, images := [], originalPrompt := originalPrompt
      improvementPrompt := improvementPrompt, enhancedPrompt := ""
      error := some "Image data is required for improvement", status := 400 }
  else
    match apiKey with
    | none =>
      { success := false, images := [], originalPrompt := originalPrompt
        improvementPrompt := improvementPrompt, enhancedPrompt := ""
        error := some "No API key provided. Please add your Google AI API key in the settings."
        status := 401 }
    | some _ =>
      let enhanced := improveEnhancedPrompt originalPrompt improvementPrompt
      let images := slots.enum.filterMap fun p =>
        match p.2.imageBytes with
        | none => none
        | some d =>
          if d = "" then none
          else some { id := "improved-" ++ toString now ++ "-" ++ toString p.1
                      url := "data:image/png;base64," ++ d
                      imageBytes := d }
      { success := true, images := images, originalPrompt := originalPrompt
        improvementPrompt := improvementPrompt, enhancedPrompt := enhanced
        error := none, status := 200 }

/-! ### Long-running video poller (generate-videos and image-to-video routes)

Both routes contain the identical loop

  let attempts = 0; const maxAttempts = 60;
  while (!operation.done && attempts < maxAttempts)
    (await sleep 10000; operation = getVideosOperation(); attempts++)

modelled below with fuel = maxAttempts - attempts, so the fuel reaches 0
exactly when attempts reaches maxAttempts. -/

/-- The fixed inter-poll delay of both video routes (10000 ms). -/
def pollDelayMs : Nat := 10000

/-- The poll bound of both video routes. -/
def pollMaxAttempts : Nat := 60

/-- State of the poll loop: the attempts counter, the total time spent
sleeping, and the done flag of the current operation object. -/
structure PollState where
  attempts : Nat
  waitedMs : Nat
  done : Bool
deriving DecidableEq, Repr

/-- The while loop; `next k` is the done flag of the operation object
returned by the k-th getVideosOperation status check (k counted from 1). -/
def pollLoop (next : Nat → Bool) : Nat → PollState → PollState
  | 0, st => st
  | fuel + 1, st =>
    if st.done then st
    else
      pollLoop next fuel
        { attempts := st.attempts + 1
          waitedMs := st.waitedMs + pollDelayMs
          done := next (st.attempts + 1) }

/-- Run the poll loop as both routes do: attempts start at 0 and the
initial done flag is the one of the generateVideos response. -/
def runVideoPoll (doneInit : Bool) (next : Nat → Bool) : PollState :=
  pollLoop next pollMaxAttempts { attempts := 0, waitedMs := 0, done := doneInit }

/-- One element of `operation.response?.generatedVideos`. -/
structure GeneratedVideo where
  videoUri : Option String
deriving DecidableEq, Repr

/-- One element of the videos array of the route response. -/
structure VideoOut where
  id : String
  url : String
  uri : String
deriving DecidableEq, Repr

/-- Outcome of a video route, separated by HTTP status: 400, 401, the
408 timeout, 200 success, and the 500 catch-all for provider errors. -/
inductive VideosRouteResult where
  | badRequest (error : String)
  | unauthorized (error : String)
  | timedOut (error : String)
  | ok (videos : List (Option VideoOut))
  | failed (error : String)
deriving DecidableEq, Repr

/-- The video extraction both routes perform after a completed poll.
Note the source maps with an async callback and then filters the
resulting promises with filter(Boolean), which removes nothing, so null
slots survive into the response; hence List (Option VideoOut). -/
def extractVideos (now : Nat) (apiKey : String) (gvs : List GeneratedVideo) :
    List (Option VideoOut) :=
  gvs.enum.map fun p =>
    match p.2.videoUri with
    | none => none
    | some uri =>
      some { id := toString now ++ "-" ++ toString p.1
             url := uri ++ "&key=" ++ apiKey
             uri := uri }

/-- POST of app/api/generate-videos/route.ts: guards, poll loop, the 408
timeout when the operation is still not done, otherwise 200 with the
extracted videos. -/
def generateVideosPOST (now : Nat) (prompt : String) (apiKey : Option String)
    (doneInit : Bool) (next : Nat → Bool) (gvs : List GeneratedVideo) :
    VideosRouteResult :=
  if prompt = "" then .badRequest "Prompt is required"
  else
    match apiKey with
    | none =>
      .unauthorized "No API key provided. Please add your Google AI API key in the settings."
    | some key =>
      let st := runVideoPoll doneInit next
      if st.done = false then .timedOut "Video generation timed out"
      else .ok (extractVideos now key gvs)

/-- POST of app/api/image-to-video/route.ts: identical poll and timeout
handling, with the prompt-and-image guard instead. -/
def imageToVideoPOST (now : Nat) (prompt : String) (imageBytes : String)
    (apiKey : Option String) (doneInit : Bool) (next : Nat → Bool)
    (gvs : List GeneratedVideo) : VideosRouteResult :=
  if prompt = "" ∨ imageBytes = "" then .badRequest "Prompt and image are required"
  else
    match apiKey with
    | none =>
      .unauthorized "No API key provided. Please add your Google AI API key in the settings."
    | some key =>
      let st := runVideoPoll doneInit next
      if st.done = false then .timedOut "Video generation timed out"
      else .ok (extractVideos now key gvs)

/-! ### Image-to-video entry guard (image-grid.tsx) -/

/-- Result of clicking Animate with Veo 2 on an image-grid tile:
either the early return (no handler, missing raw bytes, or a sample
item), or the call into onImageToVideo with the data it passes. -/
inductive ConvertAction where
  | rejected
  | invoked (imageUrl : String) (imageBytes : String) (prompt : String)
deriving DecidableEq, Repr

/-- Source data of one image tile as handleConvertToVideo receives it. -/
structure TileImageData where
  url : String
  imageBytes : Option String
  isSample : Bool
deriving DecidableEq, Repr

/-- handleConvertToVideo of image-grid.tsx:
`if (!onImageToVideo || !imageData.imageBytes || imageData.isSample) return`. -/
def handleConvertToVideo (hasHandler : Bool) (imageData : TileImageData)
    (prompt : String) : ConvertAction :=
  if !hasHandler || !(stringTruthy imageData.imageBytes) || imageData.isSample then
    .rejected
  else
    .invoked imageData.url (imageData.imageBytes.getD "") prompt

/-- The combined workflow behind the grid button: on rejection nothing
happens (no loading record, no request); on invocation the ContentGrid
handleImageToVideo runs, which always issues the network request.  The
Bool records whether a network request was issued. -/
def convertToVideoWorkflow (timeline : List Generation) (hasHandler : Bool)
    (imageData : TileImageData) (prompt : String) (now : Nat)
    (resp : Except Unit VideosData) : List Generation × Bool :=
  match handleConvertToVideo hasHandler imageData prompt with
  | .rejected => (timeline, false)
  | .invoked imageUrl _ p => (handleImageToVideo timeline imageUrl p now resp, true)

/-! ### Focused media viewer buttons (focused-media-view.tsx) -/

/-- Calls a focused-media-view button handler can make into its
environment. -/
inductive ViewerAction where
  | close
  | download (url : String)
  | improveCall (imageUrl : String) (imageBytes : String) (originalPrompt : String)
  | imageToVideoCall (imageUrl : String) (imageBytes : String) (prompt : String)
deriving DecidableEq, Repr

/-- The buttons of the metadata panel. -/
inductive ViewerButton where
  | closeButton
  | downloadButton
  | improveButton
  | animateButton
deriving DecidableEq, Repr

/-- The onClick effects of each focused-media-view button on the current
item, in call order.  The Animate with Veo 2 button renders when the
item is an image and an onImageToVideo handler exists, but its onClick
body is only onClose(); the Improve button calls onImageImprove and then
onClose. -/
def viewerButtonEffects (item : MediaItem) (b : ViewerButton) : List ViewerAction :=
  match b with
  | .closeButton => [.close]
  | .downloadButton => [.download item.url]
  | .improveButton =>
    if item.kind = .image ∧ stringTruthy item.imageBytes then
      [.improveCall item.url (item.imageBytes.getD "") item.prompt, .close]
    else []
  | .animateButton =>
    if item.kind = .image then [.close] else []

/-! ### Begin-generation traces (for the id-uniqueness invariant) -/

/-- One beginGeneration call of a session, with the Date.now() value the
handler observes. -/
inductive BeginEvent where
  | newGen (prompt : String) (kind : MediaKind) (now : Nat)
  | imageToVideo (imageUrl : String) (prompt : String) (now : Nat)
  | improveImage (originalPrompt : String) (improvementPrompt : String) (now : Nat)
deriving DecidableEq, Repr

/-- The id of the loading record each kind of begin inserts. -/
def BeginEvent.beginId : BeginEvent → String
  | .newGen _ _ now => loadingIdNew now
  | .imageToVideo _ _ now => loadingIdI2V now
  | .improveImage _ _ now => loadingIdImprove now

/-- The loading record each begin inserts at the head of the timeline. -/
def BeginEvent.loadingRecord : BeginEvent → Generation
  | .newGen prompt kind now => .loading (loadingIdNew now) prompt kind now none
  | .imageToVideo imageUrl prompt now =>
      .loading (loadingIdI2V now) (prompt ++ " - animated video") .video now (some imageUrl)
  | .improveImage originalPrompt improvementPrompt now =>
      .loading (loadingIdImprove now)
        (originalPrompt ++ " - improved: " ++ improvementPrompt) .image now none

/-- Run a sequence of begin calls against a starting timeline: each
inserts its loading record at the head
(`setGenerations(prev => [loadingGeneration, ...prev])`). -/
def runBegins (events : List BeginEvent) (timeline : List Generation) : List Generation :=
  events.foldl (fun t e => e.loadingRecord :: t) timeline

/-! ## Helper lemmas -/

theorem mem_insertByTs {x m : MediaItem} {l : List MediaItem} :
    m ∈ insertByTs x l ↔ m = x ∨ m ∈ l := by
  induction l with
  | nil => simp [insertByTs]
  | cons y ys ih =>
    by_cases h : y.timestamp ≤ x.timestamp
    · simp [insertByTs, h]
    · simp only [insertByTs, if_neg h, List.mem_cons, ih]
      tauto

theorem insertByTs_pairwise {x : MediaItem} {l : List MediaItem}
    (hl : l.Pairwise (fun a b => b.timestamp ≤ a.timestamp)) :
    (insertByTs x l).Pairwise (fun a b => b.timestamp ≤ a.timestamp) := by
  induction l with
  | nil => simp [insertByTs]
  | cons y ys ih =>
    rcases List.pairwise_cons.mp hl with ⟨hy, hys⟩
    by_cases h : y.timestamp ≤ x.timestamp
    · rw [insertByTs, if_pos h]
      refine List.pairwise_cons.mpr ⟨?_, hl⟩
      intro z hz
      rcases List.mem_cons.mp hz with rfl | hz
      · exact h
      · exact le_trans (hy z hz) h
    · rw [insertByTs, if_neg h]
      refine List.pairwise_cons.mpr ⟨?_, ih hys⟩
      intro z hz
      rcases mem_insertByTs.mp hz with rfl | hz
      · exact le_of_not_le h
      · exact hy z hz

theorem perm_insertByTs (x : MediaItem) (l : List MediaItem) :
    (insertByTs x l).Perm (x :: l) := by
  induction l with
  | nil => simp [insertByTs]
  | cons y ys ih =>
    by_cases h : y.timestamp ≤ x.timestamp
    · rw [insertByTs, if_pos h]
    · rw [insertByTs, if_neg h]
      exact ((ih.cons y).trans (List.Perm.swap x y ys))

theorem sortByTimestampDesc_perm (l : List MediaItem) :
    (sortByTimestampDesc l).Perm l := by
  induction l with
  | nil => simp [sortByTimestampDesc]
  | cons x xs ih =>
    exact (perm_insertByTs x (sortByTimestampDesc xs)).trans (ih.cons x)

theorem sortByTimestampDesc_pairwise (l : List MediaItem) :
    (sortByTimestampDesc l).Pairwise (fun a b => b.timestamp ≤ a.timestamp) := by
  induction l with
  | nil => simp [sortByTimestampDesc]
  | cons x xs ih => exact insertByTs_pairwise ih

theorem sortByTimestampDesc_eq_self {l : List MediaItem}
    (h : l.Pairwise (fun a b => b.timestamp ≤ a.timestamp)) :
    sortByTimestampDesc l = l := by
  induction l with
  | nil => rfl
  | cons x xs ih =>
    rcases List.pairwise_cons.mp h with ⟨hx, hxs⟩
    rw [sortByTimestampDesc, ih hxs]
    cases xs with
    | nil => rfl
    | cons y ys => rw [insertByTs, if_pos (hx y (List.mem_cons_self y ys))]

theorem expandGeneration_timestamp {g : Generation} {m : MediaItem}
    (hm : m ∈ expandGeneration g) : m.timestamp = g.timestamp := by
  cases g with
  | image gid prompt images ts =>
    simp only [expandGeneration, List.mem_map] at hm
    rcases hm with ⟨p, _, rfl⟩
    rfl
  | video gid prompt videos ts src =>
    simp only [expandGeneration, List.mem_map] at hm
    rcases hm with ⟨p, _, rfl⟩
    rfl
  | loading => simp [expandGeneration] at hm

theorem expandGeneration_of_isLoading {g : Generation} (h : g.isLoading = true) :
    expandGeneration g = [] := by
  cases g with
  | image => simp [Generation.isLoading] at h
  | video => simp [Generation.isLoading] at h
  | loading => rfl

theorem expandGeneration_length (g : Generation) :
    (expandGeneration g).length = g.itemCount := by
  cases g <;> simp [expandGeneration, Generation.itemCount, List.enum_length]

theorem expandTimeline_cons (g : Generation) (gs : List Generation) :
    expandTimeline (g :: gs) = expandGeneration g ++ expandTimeline gs := by
  simp [expandTimeline]

theorem expandTimeline_pairwise {t : List Generation}
    (h : t.Pairwise (fun a b => b.timestamp ≤ a.timestamp)) :
    (expandTimeline t).Pairwise (fun a b => b.timestamp ≤ a.timestamp) := by
  induction t with
  | nil => simp [expandTimeline]
  | cons g gs ih =>
    rcases List.pairwise_cons.mp h with ⟨hg, hgs⟩
    rw [expandTimeline_cons]
    refine List.pairwise_append.mpr ⟨?_, ih hgs, ?_⟩
    · refine List.pairwise_of_forall_mem_list ?_
      intro a ha b hb
      rw [expandGeneration_timestamp ha, expandGeneration_timestamp hb]
    · intro a ha b hb
      rcases List.mem_flatMap.mp hb with ⟨g2, hg2, hbg2⟩
      rw [expandGeneration_timestamp ha, expandGeneration_timestamp hbg2]
      exact hg g2 hg2

theorem getAllMediaItems_eq_expand {t : List Generation}
    (h : t.Pairwise (fun a b => b.timestamp ≤ a.timestamp)) :
    getAllMediaItems t = expandTimeline t :=
  sortByTimestampDesc_eq_self (expandTimeline_pairwise h)

theorem expandTimeline_index {t : List Generation} {g : Generation} {gid : String}
    {idx : Nat}
    (hids : (t.map Generation.id).Nodup)
    (hg : g ∈ t) (hid : g.id = gid) (hnl : g.isLoading = false)
    (hidx : idx < g.itemCount) :
    openFocusedViewIndex t gid idx < (expandTimeline t).length ∧
      (expandTimeline t)[openFocusedViewIndex t gid idx]? = (expandGeneration g)[idx]? := by
  induction t with
  | nil => cases hg
  | cons g0 gs ih =>
    have hmap : List.map Generation.id (g0 :: gs) = g0.id :: List.map Generation.id gs := rfl
    rw [hmap] at hids
    rcases List.nodup_cons.mp hids with ⟨hid0, hidsTail⟩
    by_cases hl : g0.isLoading = true
    · have hne : g ≠ g0 := by
        intro h; rw [h] at hnl; rw [hnl] at hl; cases hl
      have hgmem : g ∈ gs := by
        rcases List.mem_cons.mp hg with rfl | hgs
        · exact absurd rfl hne
        · exact hgs
      have hrec := ih hidsTail hgmem
      rw [expandTimeline_cons, expandGeneration_of_isLoading hl]
      simpa [openFocusedViewIndex, hl] using hrec
    · have hlf : g0.isLoading = false := by
        cases h0 : g0.isLoading
        · rfl
        · exact absurd h0 hl
      by_cases heq : g0.id = gid
      · have hgg0 : g = g0 := by
          rcases List.mem_cons.mp hg with rfl | hgs
          · rfl
          · exfalso
            apply hid0
            rw [heq, ← hid]
            exact List.mem_map.mpr ⟨g, hgs, rfl⟩
        subst hgg0
        have hlen : idx < (expandGeneration g).length := by
          rw [expandGeneration_length]; exact hidx
        rw [expandTimeline_cons]
        simp only [openFocusedViewIndex, hlf, Bool.false_eq_true, if_false, heq, if_pos]
        constructor
        · calc idx < (expandGeneration g).length := hlen
            _ ≤ (expandGeneration g ++ expandTimeline gs).length := by
                simp [List.length_append]
        · rw [List.getElem?_append, if_pos hlen]
      · have hne : g ≠ g0 := by
          intro h
          apply heq
          rw [← h]
          exact hid
        have hgmem : g ∈ gs := by
          rcases List.mem_cons.mp hg with rfl | hgs
          · exact absurd rfl hne
          · exact hgs
        have hrec := ih hidsTail hgmem
        rw [expandTimeline_cons]
        simp only [openFocusedViewIndex, hlf, Bool.false_eq_true, if_false, heq,
          if_neg, List.length_append]
        rw [← expandGeneration_length g0]
        constructor
        · omega
        · rw [List.getElem?_append_right (by omega)]
          simpa using hrec.2

theorem pollLoop_of_done {next : Nat → Bool} {st : PollState} (h : st.done = true) :
    ∀ fuel, pollLoop next fuel st = st := by
  intro fuel
  cases fuel with
  | zero => rfl
  | succ n => rw [pollLoop, if_pos h]

theorem pollLoop_never_done {next : Nat → Bool} (hnext : ∀ k, next k = false) :
    ∀ fuel a w,
      pollLoop next fuel { attempts := a, waitedMs := w, done := false } =
        { attempts := a + fuel, waitedMs := w + fuel * pollDelayMs, done := false } := by
  intro fuel
  induction fuel with
  | zero =>
    intro a w
    simp [pollLoop]
  | succ n ih =>
    intro a w
    rw [pollLoop]
    simp only [Bool.false_eq_true, if_false, hnext (a + 1), ih]
    have h1 : a + 1 + n = a + (n + 1) := by omega
    have h2 : w + pollDelayMs + n * pollDelayMs = w + (n + 1) * pollDelayMs := by
      rw [pollDelayMs]; ring
    rw [h1, h2]

theorem pollLoop_first_done {next : Nat → Bool} {m : Nat} (hm : next m = true) :
    ∀ fuel a w, a < m →
      (∀ j, a < j → j < m → next j = false) → m ≤ a + fuel →
      pollLoop next fuel { attempts := a, waitedMs := w, done := false } =
        { attempts := m, waitedMs := w + (m - a) * pollDelayMs, done := true } := by
  intro fuel
  induction fuel with
  | zero =>
    intro a w hlt _ hle
    omega
  | succ n ih =>
    intro a w hlt hbefore hle
    rw [pollLoop]
    simp only [Bool.false_eq_true, if_false]
    by_cases hstep : a + 1 = m
    · have hdone2 : next (a + 1) = true := by rw [hstep]; exact hm
      rw [hdone2, pollLoop_of_done rfl n]
      have h1 : m - a = 1 := by omega
      rw [hstep, h1, one_mul]
    · have hlt2 : a + 1 < m := by omega
      have hfalse : next (a + 1) = false := hbefore (a + 1) (by omega) hlt2
      rw [hfalse, ih (a + 1) (w + pollDelayMs) hlt2
        (fun j hj1 hj2 => hbefore j (by omega) hj2) (by omega)]
      have h1 : w + pollDelayMs + (m - (a + 1)) * pollDelayMs
          = w + (m - a) * pollDelayMs := by
        have h2 : m - a = (m - (a + 1)) + 1 := by omega
        rw [h2, pollDelayMs]; ring
      rw [h1]

/-- C2: the long-running video poller of generate-videos/route.ts and
image-to-video/route.ts waits a fixed 10000 ms between checks, performs
exactly 60 status checks (waiting 600000 ms in total) for an operation
that never reports done and then answers the dedicated 408 timeout
response — which is a different outcome from the 500 provider-error
response — and stops at the m-th check, with m checks total, the first
time the provider reports done; an operation that is done on submission
is never polled at all. -/
theorem poller_timeout_after_60_checks
    (now : Nat) (prompt imageBytes key : String) (gvs : List GeneratedVideo)
    (nf ef : Nat → Bool) (m : Nat)
    (hprompt : prompt ≠ "") (hbytes : imageBytes ≠ "")
    (hnf : ∀ k, nf k = false)
    (hm1 : 1 ≤ m) (hm60 : m ≤ 60)
    (hef : ef m = true) (hbefore : ∀ j, 1 ≤ j → j < m → ef j = false) :
    pollDelayMs = 10000 ∧ pollMaxAttempts = 60
    ∧ runVideoPoll false nf = { attempts := 60, waitedMs := 600000, done := false }
    ∧ generateVideosPOST now prompt (some key) false nf gvs
        = .timedOut "Video generation timed out"
    ∧ imageToVideoPOST now prompt imageBytes (some key) false nf gvs
        = .timedOut "Video generation timed out"
    ∧ (∀ e, VideosRouteResult.timedOut "Video generation timed out"
        ≠ VideosRouteResult.failed e)
    ∧ runVideoPoll false ef
        = { attempts := m, waitedMs := m * pollDelayMs, done := true }
    ∧ generateVideosPOST now prompt (some key) false ef gvs
        = .ok (extractVideos now key gvs)
    ∧ runVideoPoll true nf = { attempts := 0, waitedMs := 0, done := true } := by
  have hnever : runVideoPoll false nf
      = { attempts := 60, waitedMs := 600000, done := false } := by
    rw [runVideoPoll, pollLoop_never_done hnf pollMaxAttempts 0 0]
    simp [pollMaxAttempts, pollDelayMs]
  have hfirst : runVideoPoll false ef
      = { attempts := m, waitedMs := m * pollDelayMs, done := true } := by
    rw [runVideoPoll, pollLoop_first_done hef pollMaxAttempts 0 0 (by omega)
      (fun j hj1 hj2 => hbefore j (by omega) hj2) (by rw [pollMaxAttempts]; omega)]
    simp
  refine ⟨rfl, rfl, hnever, ?_, ?_, ?_, hfirst, ?_, ?_⟩
  · rw [generateVideosPOST, if_neg hprompt]
    rw [hnever]
    simp
  · rw [imageToVideoPOST, if_neg (by rw [not_or]; exact ⟨hprompt, hbytes⟩)]
    rw [hnever]
    simp
  · intro e h
    cases h
  · rw [generateVideosPOST, if_neg hprompt]
    rw [hfirst]
    simp
  · rw [runVideoPoll, pollLoop_of_done rfl]

/-- Witness for C2: concrete never-done and done-on-third-check pollers. -/
theorem poller_timeout_after_60_checks_witness :
    runVideoPoll false (fun _ => false)
      = { attempts := 60, waitedMs := 600000, done := false }
    ∧ runVideoPoll false (fun k => decide (k = 3))
      = { attempts := 3, waitedMs := 30000, done := true }
    ∧ generateVideosPOST 0 "a city skyline" (some "key") false (fun _ => false) []
      = .timedOut "Video generation timed out" := by
  have h := poller_timeout_after_60_checks 0 "a city skyline" "bytes" "key" []
    (fun _ => false) (fun k => decide (k = 3)) 3
    (by decide) (by decide) (fun _ => rfl) (by decide) (by decide) (by decide)
    (by intro j h1 h2; interval_cases j <;> rfl)
  exact ⟨h.2.2.1, h.2.2.2.2.2.2.1, h.2.2.2.1⟩

/-- C1 (amended): the images route fires 4 sub-calls and keeps exactly
those that produced an inline image payload, in order — 2 usable out of
4 yield exactly 2 images — but when all 4 sub-calls yield nothing the
route still answers 200 with success true and an empty images list;
no NoContentGenerated failure exists. -/
theorem requestImages_partial_failure
    (now : Nat) (prompt key : String)
    (subResults : List (Except Unit GeminiResponse))
    (hprompt : prompt ≠ "") (_hlen : subResults.length = 4) :
    (generateImagesPOST now prompt (some key) subResults).success = true
    ∧ (generateImagesPOST now prompt (some key) subResults).status = 200
    ∧ (generateImagesPOST now prompt (some key) subResults).images
        = subResults.enum.filterMap (fun p => subCallImage now p.1 p.2)
    ∧ (generateImagesPOST now prompt (some key) subResults).images.length
        = subResults.enum.countP (fun p => (subCallImage now p.1 p.2).isSome)
    ∧ ((∀ p ∈ subResults.enum, subCallImage now p.1 p.2 = none) →
        (generateImagesPOST now prompt (some key) subResults).images = []) := by
  have hroute : generateImagesPOST now prompt (some key) subResults
      = { success := true
          images := subResults.enum.filterMap (fun p => subCallImage now p.1 p.2)
          error := none
          status := 200 } := by
    rw [generateImagesPOST, if_neg hprompt]
    simp only [ImagesRouteResponse.mk.injEq, and_true, true_and]
    rw [List.filterMap_map]
    rfl
  rw [hroute]
  refine ⟨rfl, rfl, rfl, ?_, ?_⟩
  · rw [List.length_filterMap_eq_countP]
  · intro hall
    rw [List.filterMap_eq_nil_iff]
    exact hall

/-- Witness for C1: a batch where sub-calls 0 and 2 produce a payload,
sub-call 1 throws and sub-call 3 returns a response with no inline
image: exactly 2 images survive. -/
theorem requestImages_partial_failure_witness :
    (generateImagesPOST 5 "a red fox" (some "key")
      [Except.ok ⟨[⟨some [⟨some ⟨some "image/png", "AAA"⟩⟩]⟩]⟩,
       Except.error (),
       Except.ok ⟨[⟨some [⟨some ⟨none, "BBB"⟩⟩]⟩]⟩,
       Except.ok ⟨[⟨some [⟨none⟩]⟩]⟩]).images.length = 2 := by
  have h := requestImages_partial_failure 5 "a red fox" "key"
    [Except.ok ⟨[⟨some [⟨some ⟨some "image/png", "AAA"⟩⟩]⟩]⟩,
     Except.error (),
     Except.ok ⟨[⟨some [⟨some ⟨none, "BBB"⟩⟩]⟩]⟩,
     Except.ok ⟨[⟨some [⟨none⟩]⟩]⟩]
    (by decide) (by decide)
  rw [h.2.2.2.1]
  decide

/-- Counterexample for C1 as stated: with all 4 sub-calls unusable the
route reports success with an empty list (HTTP 200), not a failure of
any kind. -/
theorem requestImages_zero_results_counterexample :
    generateImagesPOST 5 "a red fox" (some "key")
      [Except.error (), Except.error (), Except.ok ⟨[]⟩, Except.ok ⟨[⟨none⟩]⟩]
      = { success := true, images := [], error := none, status := 200 } := by
  decide

theorem failGeneration_fresh {t : List Generation} {g : Generation}
    (h : g.id ∉ t.map Generation.id) : failGeneration (g :: t) g.id = t := by
  rw [failGeneration, List.filter_cons_of_neg (by simp)]
  rw [List.filter_eq_self]
  intro a ha
  simp only [decide_eq_true_eq]
  intro hEq
  exact h (hEq ▸ List.mem_map.mpr ⟨a, ha, rfl⟩)

theorem completeGeneration_absent {t : List Generation} {id0 : String}
    {c : Generation} (h : id0 ∉ t.map Generation.id) :
    completeGeneration t id0 c = t := by
  induction t with
  | nil => rfl
  | cons a t ih =>
    have ha : a.id ≠ id0 := by
      intro hEq
      exact h (List.mem_cons.mpr (Or.inl hEq.symm))
    have ht : id0 ∉ t.map Generation.id := by
      intro hmem
      exact h (List.mem_cons.mpr (Or.inr hmem))
    rw [completeGeneration, List.map_cons, if_neg ha]
    rw [completeGeneration] at ih
    rw [ih ht]

/-- C3: on every failure outcome — a response whose success flag is not
true, or a thrown fetch/json exception — each of the four workflows
(new image generation, new video generation, image-to-video,
improve-image) removes the loading record it had inserted, leaving the
timeline exactly as it was before the insertion (given the fresh loading
id did not already occur in the timeline). -/
theorem failure_paths_restore_timeline
    (t : List Generation) (prompt imageUrl orig imp : String) (now : Nat)
    (ri : Except Unit ImagesData) (rv : Except Unit VideosData)
    (rc : Except Unit VideosData) (rm : Except Unit ImproveData)
    (hfreshNew : loadingIdNew now ∉ t.map Generation.id)
    (hfreshI2V : loadingIdI2V now ∉ t.map Generation.id)
    (hfreshImp : loadingIdImprove now ∉ t.map Generation.id)
    (hri : ri = .error () ∨ ∃ d, ri = .ok d ∧ d.success = false)
    (hrv : rv = .error () ∨ ∃ d, rv = .ok d ∧ d.success = false)
    (hrc : rc = .error () ∨ ∃ d, rc = .ok d ∧ d.success = false)
    (hrm : rm = .error () ∨ ∃ d, rm = .ok d ∧ d.success = false) :
    handleNewGenerationImage t prompt now ri = t
    ∧ handleNewGenerationVideo t prompt now rv = t
    ∧ handleImageToVideo t imageUrl prompt now rc = t
    ∧ handleImproveImage t orig imp now rm = t := by
  refine ⟨?_, ?_, ?_, ?_⟩
  · rcases hri with rfl | ⟨d, rfl, hd⟩
    · exact failGeneration_fresh hfreshNew
    · simp only [handleNewGenerationImage, hd, Bool.false_eq_true, if_false]
      exact failGeneration_fresh hfreshNew
  · rcases hrv with rfl | ⟨d, rfl, hd⟩
    · exact failGeneration_fresh hfreshNew
    · simp only [handleNewGenerationVideo, hd, Bool.false_eq_true, if_false]
      exact failGeneration_fresh hfreshNew
  · rcases hrc with rfl | ⟨d, rfl, hd⟩
    · exact failGeneration_fresh hfreshI2V
    · simp only [handleImageToVideo, hd, Bool.false_eq_true, if_false]
      exact failGeneration_fresh hfreshI2V
  · rcases hrm with rfl | ⟨d, rfl, hd⟩
    · exact failGeneration_fresh hfreshImp
    · simp only [handleImproveImage, hd, Bool.false_eq_true, if_false]
      exact failGeneration_fresh hfreshImp

/-- Witness for C3: a concrete timeline with one completed record is
unchanged by all four workflows when the response reports failure or the
fetch throws. -/
theorem failure_paths_restore_timeline_witness :
    handleNewGenerationImage [Generation.image "sample-image-1" "p" [] 3] "a fox" 9
        (.ok { success := false, images := [], error := some "boom" })
      = [Generation.image "sample-image-1" "p" [] 3]
    ∧ handleImageToVideo [Generation.image "sample-image-1" "p" [] 3] "u" "a fox" 9
        (.error ())
      = [Generation.image "sample-image-1" "p" [] 3] := by
  have h := failure_paths_restore_timeline
    [Generation.image "sample-image-1" "p" [] 3] "a fox" "u" "o" "i" 9
    (.ok { success := false, images := [], error := some "boom" })
    (.error ()) (.error ()) (.error ())
    (by decide) (by decide) (by decide)
    (Or.inr ⟨_, rfl, rfl⟩) (Or.inl rfl) (Or.inl rfl) (Or.inl rfl)
  exact ⟨h.1, h.2.2.1⟩

/-- C6: completeGeneration maps the timeline in place — every record
whose id differs from the target is kept unchanged at its position, the
record whose id matches is replaced at its position by the completed
variant, which carries the same id and the same timestamp as the record
it replaces; when no record carries the target id the timeline is
returned unchanged. -/
theorem completeGeneration_replaces_in_place
    (t : List Generation) (id0 : String) (c : Generation)
    (hcid : c.id = id0)
    (hts : ∀ g ∈ t, g.id = id0 → g.timestamp = c.timestamp) :
    (completeGeneration t id0 c).length = t.length
    ∧ (∀ (i : Nat) (g : Generation), t[i]? = some g → g.id ≠ id0 →
        (completeGeneration t id0 c)[i]? = some g)
    ∧ (∀ (i : Nat) (g : Generation), t[i]? = some g → g.id = id0 →
        (completeGeneration t id0 c)[i]? = some c
          ∧ c.id = g.id ∧ c.timestamp = g.timestamp)
    ∧ (id0 ∉ t.map Generation.id → completeGeneration t id0 c = t) := by
  refine ⟨?_, ?_, ?_, completeGeneration_absent⟩
  · rw [completeGeneration, List.length_map]
  · intro i g hi hne
    rw [completeGeneration, List.getElem?_map, hi]
    simp [if_neg hne]
  · intro i g hi hEq
    refine ⟨?_, by rw [hcid, hEq], (hts g (List.getElem?_mem hi) hEq).symm⟩
    rw [completeGeneration, List.getElem?_map, hi]
    simp [if_pos hEq]

/-- Witness for C6: completing the loading record of a two-record
timeline replaces it in place and keeps the other record; completing a
missing id is the identity. -/
theorem completeGeneration_replaces_in_place_witness :
    (completeGeneration
        [Generation.loading "loading-9" "a fox" .image 9 none,
         Generation.image "sample-image-1" "p" [] 3]
        "loading-9" (Generation.image "loading-9" "a fox" [] 9))[0]?
      = some (Generation.image "loading-9" "a fox" [] 9)
    ∧ (completeGeneration
        [Generation.loading "loading-9" "a fox" .image 9 none,
         Generation.image "sample-image-1" "p" [] 3]
        "loading-9" (Generation.image "loading-9" "a fox" [] 9))[1]?
      = some (Generation.image "sample-image-1" "p" [] 3)
    ∧ completeGeneration [Generation.image "sample-image-1" "p" [] 3]
        "loading-9" (Generation.image "loading-9" "a fox" [] 9)
      = [Generation.image "sample-image-1" "p" [] 3] := by
  have h := completeGeneration_replaces_in_place
    [Generation.loading "loading-9" "a fox" .image 9 none,
     Generation.image "sample-image-1" "p" [] 3]
    "loading-9" (Generation.image "loading-9" "a fox" [] 9)
    rfl (by
      intro g hg hid
      fin_cases hg
      · decide
      · exact absurd hid (by decide))
  have h2 := completeGeneration_replaces_in_place
    [Generation.image "sample-image-1" "p" [] 3]
    "loading-9" (Generation.image "loading-9" "a fox" [] 9)
    rfl (by
      intro g hg hid
      fin_cases hg
      exact absurd hid (by decide))
  refine ⟨?_, ?_, h2.2.2.2 (by decide)⟩
  · exact (h.2.2.1 0 (Generation.loading "loading-9" "a fox" .image 9 none)
      (by decide) (by decide)).1
  · exact h.2.1 1 (Generation.image "sample-image-1" "p" [] 3)
      (by decide) (by decide)

/-- C4: getAllMediaItems is a pure function of the timeline snapshot —
two flattenings of the same unmutated timeline are identical — whose
output is a permutation of the per-record expansion (so exactly the
completed records contribute, loading records expand to nothing, and a
completed record contributes one item per image/video), is sorted by
timestamp descending, and tags every item with the composite id built
from the generation id and the local index. -/
theorem flatten_pure_sorted_tagged (t : List Generation) :
    getAllMediaItems t = getAllMediaItems t
    ∧ (getAllMediaItems t).Perm (expandTimeline t)
    ∧ (getAllMediaItems t).Pairwise (fun a b => b.timestamp ≤ a.timestamp)
    ∧ (∀ g ∈ t, g.isLoading = true → expandGeneration g = [])
    ∧ (∀ g : Generation, (expandGeneration g).length = g.itemCount)
    ∧ (∀ (g : Generation) (i : Nat) (m : MediaItem),
        (expandGeneration g)[i]? = some m →
          m.id = g.id ++ (if m.kind = MediaKind.image then "-img-" else "-vid-")
              ++ toString i
          ∧ m.timestamp = g.timestamp ∧ m.prompt = g.prompt) := by
  refine ⟨rfl, sortByTimestampDesc_perm _, sortByTimestampDesc_pairwise _,
    fun g _ h => expandGeneration_of_isLoading h, expandGeneration_length, ?_⟩
  intro g i m hm
  cases g with
  | image gid prompt images ts =>
    rw [expandGeneration, List.getElem?_map, List.getElem?_enum] at hm
    cases himg : images[i]? with
    | none => rw [himg] at hm; cases hm
    | some item =>
      rw [himg] at hm
      simp only [Option.map_some', Option.some.injEq] at hm
      rw [← hm]
      exact ⟨by simp [Generation.id], rfl, rfl⟩
  | video gid prompt videos ts src =>
    rw [expandGeneration, List.getElem?_map, List.getElem?_enum] at hm
    cases hvid : videos[i]? with
    | none => rw [hvid] at hm; cases hm
    | some item =>
      rw [hvid] at hm
      simp only [Option.map_some', Option.some.injEq] at hm
      rw [← hm]
      exact ⟨by simp [Generation.id], rfl, rfl⟩
  | loading =>
    rw [expandGeneration] at hm
    cases hm

/-- C5: whenever the timeline order agrees with descending timestamps
(which holds for every reachable timeline: new records are inserted at
the head with the current clock) and ids are unique, the global index
computed by openFocusedView for an existing item of a completed record
is in range for the flattened list and addresses exactly that item. -/
theorem openFocusedViewIndex_correct
    (t : List Generation) (g : Generation) (gid : String) (idx : Nat)
    (horder : t.Pairwise (fun a b => b.timestamp ≤ a.timestamp))
    (hids : (t.map Generation.id).Nodup)
    (hg : g ∈ t) (hid : g.id = gid) (hnl : g.isLoading = false)
    (hidx : idx < g.itemCount) :
    openFocusedViewIndex t gid idx < (getAllMediaItems t).length
    ∧ ∃ m : MediaItem, (expandGeneration g)[idx]? = some m
        ∧ (getAllMediaItems t)[openFocusedViewIndex t gid idx]? = some m := by
  have hflat := getAllMediaItems_eq_expand horder
  have h := expandTimeline_index hids hg hid hnl hidx
  rw [hflat]
  refine ⟨h.1, ?_⟩
  have hlen : idx < (expandGeneration g).length := by
    rw [expandGeneration_length]; exact hidx
  cases hx : (expandGeneration g)[idx]? with
  | none =>
    rw [List.getElem?_eq_none_iff] at hx
    omega
  | some m =>
    refine ⟨m, rfl, ?_⟩
    rw [h.2, hx]

/-- Witness for C5: a two-generation timeline; the second item of the
older image generation sits at global index 3 = 2 videos + 1. -/
theorem openFocusedViewIndex_correct_witness :
    openFocusedViewIndex
        [Generation.video "sample-video-1" "pv" ["v1", "v2"] 20 none,
         Generation.image "sample-image-1" "pi"
           [⟨"u1", none, true⟩, ⟨"u2", none, true⟩] 10]
        "sample-image-1" 1 = 3
    ∧ (openFocusedViewIndex
        [Generation.video "sample-video-1" "pv" ["v1", "v2"] 20 none,
         Generation.image "sample-image-1" "pi"
           [⟨"u1", none, true⟩, ⟨"u2", none, true⟩] 10]
        "sample-image-1" 1
      < (getAllMediaItems
          [Generation.video "sample-video-1" "pv" ["v1", "v2"] 20 none,
           Generation.image "sample-image-1" "pi"
             [⟨"u1", none, true⟩, ⟨"u2", none, true⟩] 10]).length
    ∧ ∃ m : MediaItem,
        (expandGeneration (Generation.image "sample-image-1" "pi"
          [⟨"u1", none, true⟩, ⟨"u2", none, true⟩] 10))[1]? = some m
        ∧ (getAllMediaItems
            [Generation.video "sample-video-1" "pv" ["v1", "v2"] 20 none,
             Generation.image "sample-image-1" "pi"
               [⟨"u1", none, true⟩, ⟨"u2", none, true⟩] 10])[openFocusedViewIndex
            [Generation.video "sample-video-1" "pv" ["v1", "v2"] 20 none,
             Generation.image "sample-image-1" "pi"
               [⟨"u1", none, true⟩, ⟨"u2", none, true⟩] 10]
            "sample-image-1" 1]? = some m) := by
  refine ⟨by decide, ?_⟩
  exact openFocusedViewIndex_correct
    [Generation.video "sample-video-1" "pv" ["v1", "v2"] 20 none,
     Generation.image "sample-image-1" "pi"
       [⟨"u1", none, true⟩, ⟨"u2", none, true⟩] 10]
    (Generation.image "sample-image-1" "pi"
       [⟨"u1", none, true⟩, ⟨"u2", none, true⟩] 10)
    "sample-image-1" 1
    (by decide) (by decide) (by decide) (by decide) (by decide) (by decide)

theorem improveShownPrompt_truthy {s : String} (fb : String) (h : s ≠ "") :
    improveShownPrompt (some s) fb = s := by
  rw [improveShownPrompt, if_neg h]

theorem improveShownPrompt_falsy {e : Option String} (fb : String)
    (h : e = none ∨ e = some "") : improveShownPrompt e fb = fb := by
  rcases h with rfl | rfl
  · rfl
  · rw [improveShownPrompt, if_pos rfl]

/-- C7: clicking Animate with Veo 2 on a tile whose item is flagged as a
sample or lacks retained raw bytes takes the early-return branch of
handleConvertToVideo: onImageToVideo is never called, so no loading
record is inserted and no network request is issued — the timeline is
unchanged and the request flag stays false. -/
theorem imageToVideo_rejects_unsupported_source
    (t : List Generation) (hasHandler : Bool) (imageData : TileImageData)
    (prompt : String) (now : Nat) (resp : Except Unit VideosData)
    (h : imageData.isSample = true ∨ stringTruthy imageData.imageBytes = false) :
    handleConvertToVideo hasHandler imageData prompt = .rejected
    ∧ convertToVideoWorkflow t hasHandler imageData prompt now resp = (t, false) := by
  have hrej : handleConvertToVideo hasHandler imageData prompt = .rejected := by
    rcases h with h | h <;> simp [handleConvertToVideo, h]
  exact ⟨hrej, by simp [convertToVideoWorkflow, hrej]⟩

/-- Witness for C7: a static sample image item is rejected and the
timeline stays as it was. -/
theorem imageToVideo_rejects_unsupported_source_witness :
    handleConvertToVideo true
        ⟨"/sample-images/generated-image-1.png", none, true⟩ "ice warrior"
      = .rejected
    ∧ convertToVideoWorkflow [] true
        ⟨"/sample-images/generated-image-1.png", none, true⟩ "ice warrior" 5
        (.error ())
      = ([], false) :=
  imageToVideo_rejects_unsupported_source [] true
    ⟨"/sample-images/generated-image-1.png", none, true⟩ "ice warrior" 5
    (.error ()) (Or.inl rfl)

/-- C8: the improve-image route composes the derived prompt from the
original and improvement prompts and echoes it as enhancedPrompt, and on
a successful run the completed record at the head of the timeline shows
the echoed enhancedPrompt when it is truthy, otherwise the locally
composed label, which carries both the original and the improvement
text. -/
theorem improvePrompt_composition
    (t : List Generation) (orig imp : String) (now : Nat) (data : ImproveData)
    (hsucc : data.success = true) :
    improveEnhancedPrompt orig imp = orig ++ ". Please improve this image by: " ++ imp
    ∧ (∀ (now2 : Nat) (imageBytes key : String) (slots : List ImagenSlot),
        orig ≠ "" → imp ≠ "" → imageBytes ≠ "" →
          (improveImagePOST now2 orig imp imageBytes (some key) slots).enhancedPrompt
            = improveEnhancedPrompt orig imp)
    ∧ ∃ g : Generation,
        (handleImproveImage t orig imp now (.ok data)).head? = some g
        ∧ g.isLoading = false
        ∧ g.prompt
            = improveShownPrompt data.enhancedPrompt (orig ++ " - improved: " ++ imp)
        ∧ (∀ s : String, data.enhancedPrompt = some s → s ≠ "" → g.prompt = s)
        ∧ ((data.enhancedPrompt = none ∨ data.enhancedPrompt = some "") →
            g.prompt = orig ++ " - improved: " ++ imp) := by
  refine ⟨rfl, ?_, ?_⟩
  · intro now2 imageBytes key slots ho hi hb
    rw [improveImagePOST, if_neg (by rw [not_or]; exact ⟨ho, hi⟩), if_neg hb]
  · simp only [handleImproveImage, hsucc, if_true]
    refine ⟨Generation.image (loadingIdImprove now)
        (improveShownPrompt data.enhancedPrompt (orig ++ " - improved: " ++ imp))
        (data.images.map fun im =>
          { url := im.url, imageBytes := im.imageBytes, isSample := false })
        now, ?_, rfl, rfl, ?_, ?_⟩
    · rw [completeGeneration, List.map_cons, List.head?_cons, if_pos rfl]
      rfl
    · intro s hs hne
      simp only [Generation.prompt, hs]
      exact improveShownPrompt_truthy _ hne
    · intro hfalsy
      simp only [Generation.prompt]
      exact improveShownPrompt_falsy _ hfalsy

/-- Witness for C8: with an echoed enhancedPrompt present, the head
record of the timeline displays it. -/
theorem improvePrompt_composition_witness :
    ∃ g : Generation,
      (handleImproveImage [] "a fox" "sharper fur" 9
        (.ok { success := true, images := []
               enhancedPrompt := some "a fox. Please improve this image by: sharper fur"
               error := none })).head? = some g
      ∧ g.prompt = "a fox. Please improve this image by: sharper fur" := by
  have h := improvePrompt_composition [] "a fox" "sharper fur" 9
    { success := true, images := []
      enhancedPrompt := some "a fox. Please improve this image by: sharper fur"
      error := none } rfl
  rcases h.2.2 with ⟨g, hhead, _, _, htruthy, _⟩
  exact ⟨g, hhead, htruthy _ rfl (by decide)⟩

/-- Counterexample for C9 as stated: two new-generation begins that
observe the same Date.now() millisecond produce the same
loading-(now) id, so the timeline holds two records with one id. -/
theorem beginIds_not_unique_counterexample :
    ¬ (((runBegins [BeginEvent.newGen "a" MediaKind.image 7,
          BeginEvent.newGen "b" MediaKind.image 7] []).map Generation.id).Nodup) := by
  decide

/-- C9 (amended): ids in the timeline are unique provided the ids the
begin events generate are pairwise distinct (which fails only when two
begins of the same workflow kind observe the same millisecond, since
each workflow prefixes its ids differently) and none of them collides
with an id already present. -/
theorem runBegins_unique_ids (events : List BeginEvent) (t0 : List Generation)
    (h0 : (t0.map Generation.id).Nodup)
    (hdisj : ∀ e ∈ events, e.beginId ∉ t0.map Generation.id)
    (hpair : events.Pairwise (fun e1 e2 => e1.beginId ≠ e2.beginId)) :
    ((runBegins events t0).map Generation.id).Nodup := by
  induction events generalizing t0 with
  | nil => exact h0
  | cons e es ih =>
    rcases List.pairwise_cons.mp hpair with ⟨hhead, htail⟩
    have hrec : (e.loadingRecord).id = e.beginId := by cases e <;> rfl
    apply ih (e.loadingRecord :: t0)
    · rw [List.map_cons, List.nodup_cons, hrec]
      exact ⟨hdisj e (List.mem_cons_self e es), h0⟩
    · intro e2 he2
      rw [List.map_cons, List.mem_cons, hrec]
      rw [not_or]
      exact ⟨Ne.symm (hhead e2 he2), hdisj e2 (List.mem_cons_of_mem e he2)⟩
    · exact htail

/-- Witness for C9 (amended): three begins at distinct milliseconds (or
of different workflows) yield pairwise distinct ids. -/
theorem runBegins_unique_ids_witness :
    ((runBegins [BeginEvent.newGen "a" MediaKind.image 7,
        BeginEvent.imageToVideo "u" "p" 7,
        BeginEvent.newGen "b" MediaKind.image 8]
      [Generation.image "sample-image-1" "p" [] 3]).map Generation.id).Nodup :=
  runBegins_unique_ids
    [BeginEvent.newGen "a" MediaKind.image 7,
     BeginEvent.imageToVideo "u" "p" 7,
     BeginEvent.newGen "b" MediaKind.image 8]
    [Generation.image "sample-image-1" "p" [] 3]
    (by decide) (by decide) (by decide)

/-- C10: no button of the focused media viewer ever calls the
onImageToVideo handler — in particular the Animate with Veo 2 button,
rendered for image items, only closes the viewer. -/
theorem focusedView_never_invokes_imageToVideo
    (item : MediaItem) (b : ViewerButton) :
    (∀ (u bs pr : String),
      ViewerAction.imageToVideoCall u bs pr ∉ viewerButtonEffects item b)
    ∧ (item.kind = MediaKind.image →
        viewerButtonEffects item .animateButton = [.close]) := by
  constructor
  · intro u bs pr hmem
    cases b with
    | closeButton => simp [viewerButtonEffects] at hmem
    | downloadButton => simp [viewerButtonEffects] at hmem
    | improveButton =>
      by_cases hc : (item.kind = MediaKind.image ∧ stringTruthy item.imageBytes = true)
      · simp [viewerButtonEffects, hc] at hmem
      · simp [viewerButtonEffects, hc] at hmem
    | animateButton =>
      by_cases hc : item.kind = MediaKind.image
      · simp [viewerButtonEffects, hc] at hmem
      · simp [viewerButtonEffects, hc] at hmem
  · intro h
    simp [viewerButtonEffects, h]

end Openjourney
